import Mathlib

/-!
Verification of the local inference server lifecycle manager
(`src-tauri/src/local_speech.rs`, status record from `src-tauri/src/types.rs`).

The Rust code is shallowly embedded as pure Lean functions.  Effects are made
explicit:

* the shared `FastWhisperStatus` record becomes a Lean structure; the
  `updated_at` timestamp is modelled by a logical clock (`Nat`) that the
  status store advances on every mutation;
* every `update_status` call appends the emitted snapshot (the
  `app.emit("local-speech:status", ...)` payload) to an `emits` trace;
* the filesystem (existence of the repository directory), the `git clone`
  subprocess, the start/stop control scripts and the health probe are
  resolved by environment records supplied to each operation: a script run
  is a list of captured output lines plus an optional failure message, a
  clone / remove / mkdir step is an optional failure message, and a health
  wait is an `Except String Unit`;
* `remove_dir_all` and the launch of `git clone` are recorded in an `events`
  trace so that ordering claims about deletion and fetching can be stated.

`wait_for_health` is modelled separately and in more detail: it consumes a
trace of probe outcomes (`Option Nat` = HTTP status code, `none` = transport
error or request timeout) paired with the elapsed wall-clock seconds
measured after that probe, mirroring the poll / compare / timeout loop of
the source.
-/

namespace Winky

/-- Events observable on the filesystem / subprocess boundary of
`ensure_repository`: recursive deletion of the repository directory and the
launch of the `git clone` command. -/
inductive Ev where
  | removeDir : Ev
  | cloneInvoked : Ev
deriving DecidableEq

/-- The shared lifecycle status record (`FastWhisperStatus` in
`src-tauri/src/types.rs`).  `updated_at` and `last_success_at` carry logical
clock values instead of UTC milliseconds. -/
structure FastWhisperStatus where
  installed : Bool
  running : Bool
  phase : String
  message : String
  error : Option String
  last_action : Option String
  last_success_at : Option Nat
  log_line : Option String
  install_dir : Option String
  updated_at : Nat
deriving DecidableEq

/-- `FastWhisperStatus::new` from `types.rs`: fresh record in phase
`"not-installed"` with the given message; `now` plays the role of
`Utc::now().timestamp_millis()`. -/
def FastWhisperStatus.new (message : String) (now : Nat) : FastWhisperStatus :=
  { installed := false
    running := false
    phase := "not-installed"
    message := message
    error := none
    last_action := none
    last_success_at := none
    log_line := none
    install_dir := none
    updated_at := now }

/-- The manager state: the status record behind the status mutex, whether the
repository directory exists on disk, the trace of filesystem/subprocess
events, the trace of emitted status snapshots, and the logical clock. -/
structure MState where
  status : FastWhisperStatus
  repoExists : Bool
  events : List Ev
  emits : List FastWhisperStatus
  clock : Nat
deriving DecidableEq

/-- `FastWhisperManager::update_status`: applies the mutation under the
status lock, stamps `updated_at`, and emits the new snapshot. -/
def update_status (f : FastWhisperStatus → FastWhisperStatus) (s : MState) : MState :=
  let st := { f s.status with updated_at := s.clock }
  { s with status := st, emits := s.emits ++ [st], clock := s.clock + 1 }

/-- One control-script invocation as seen by `run_script`: the non-empty
output lines it produces (stdout and stderr merged) and its result
(`none` = exit success, `some msg` = spawn/wait failure or non-zero exit,
with `msg` the error's display string, e.g. `"start script failed"`). -/
structure ScriptRun where
  lines : List String
  result : Option String

/-- Environment of one `stop_server` call: the stop script's run and the
outcome of `wait_for_health(false)` (which `stop_server` discards). -/
structure StopEnv where
  script : ScriptRun
  healthDown : Except String Unit

/-- Environment of one `start_server` call: the internal best-effort
pre-stop, the start script's run, and the outcome of
`wait_for_health(true)`. -/
structure StartEnv where
  preStop : StopEnv
  script : ScriptRun
  healthUp : Except String Unit

/-- Environment of one `ensure_repository` call: outcomes of
`remove_dir_all` (consulted only on the force path), `create_dir_all` and
the `git clone` subprocess (`none` = success). -/
structure EnsureEnv where
  removeRes : Option String
  createRes : Option String
  cloneRes : Option String

/-- Environment of one public lifecycle operation. -/
structure OpEnv where
  ensure : EnsureEnv
  start : StartEnv
  preStop : StopEnv

/-- Body of the line loop in `run_script`: a trimmed non-empty output line
sets `log_line` and, while the phase is `installing`/`starting`/
`reinstalling`, also `message`. -/
def applyLogLine (message : String) (st : FastWhisperStatus) : FastWhisperStatus :=
  { st with
    log_line := some message
    message :=
      if st.phase == "installing" || st.phase == "starting" || st.phase == "reinstalling" then
        message
      else st.message }

/-- One iteration of `run_script`'s receive loop: empty lines (after
trimming) are skipped, others update the status. -/
def logStep (s : MState) (line : String) : MState :=
  let trimmed := line.trim
  if trimmed.isEmpty then s else update_status (applyLogLine trimmed) s

/-- `FastWhisperManager::run_script`: streams the child's output lines into
status updates, then reports the script's result. -/
def run_script (r : ScriptRun) (s : MState) : MState × Option String :=
  (r.lines.foldl logStep s, r.result)

/-- `FastWhisperManager::stop_server`: no-op success when the repository
directory is absent; otherwise runs the stop script and the downward health
wait, ignoring both results. -/
def stop_server (e : StopEnv) (s : MState) : MState × Except String Unit :=
  if s.repoExists then
    let s1 := (run_script e.script s).1
    let _ignored := e.healthDown
    (s1, Except.ok ())
  else (s, Except.ok ())

/-- The status reset `start_server` performs before launching the start
script. -/
def startingUpdate (st : FastWhisperStatus) : FastWhisperStatus :=
  { st with
    phase := "starting"
    running := false
    error := none
    message := "Starting local server…"
    log_line := none
    installed := true }

/-- The status update `start_server` performs when the start script fails. -/
def scriptFailUpdate (msg : String) (st : FastWhisperStatus) : FastWhisperStatus :=
  { st with
    message := "start.bat reported: " ++ msg
    error := some msg }

/-- The status update `start_server` performs when the upward health wait
fails. -/
def healthFailUpdate (err : String) (st : FastWhisperStatus) : FastWhisperStatus :=
  { st with
    phase := "error"
    running := false
    message := err
    error := some err }

/-- The status update `start_server` performs when the health wait succeeds
although the start script had failed. -/
def warningsUpdate (st : FastWhisperStatus) : FastWhisperStatus :=
  { st with
    error := none
    message := "Server started with warnings." }

/-- The final status update of a successful `start_server`; `now` is the
clock value taken for `last_success_at`. -/
def runningUpdate (action : String) (now : Nat) (st : FastWhisperStatus) : FastWhisperStatus :=
  { st with
    phase := "running"
    running := true
    message := "Server " ++ action ++ "ed."
    last_action := some action
    last_success_at := some now }

/-- `FastWhisperManager::start_server`: best-effort pre-stop, `starting`
status reset, start script (a failure is remembered and surfaced in the
status but not yet fatal), then the upward health wait decides the outcome.
On probe success after a script failure the error is cleared with a
warnings message; the final update moves to `running`. -/
def start_server (e : StartEnv) (action : String) (s : MState) :
    MState × Except String FastWhisperStatus :=
  let s1 := (stop_server e.preStop s).1
  let s2 := update_status startingUpdate s1
  let s3 := (run_script e.script s2).1
  let s4 := match e.script.result with
    | none => s3
    | some msg => update_status (scriptFailUpdate msg) s3
  match e.healthUp with
  | Except.error err =>
      let s5 := update_status (healthFailUpdate err) s4
      (s5, Except.error (e.script.result.getD err))
  | Except.ok _ =>
      let s5 := match e.script.result with
        | some _ => update_status warningsUpdate s4
        | none => s4
      let s6 := update_status (runningUpdate action s5.clock) s5
      (s6, Except.ok s6.status)

/-- The status update `ensure_repository` performs before cloning. -/
def installingUpdate (st : FastWhisperStatus) : FastWhisperStatus :=
  { st with
    phase := "installing"
    installed := false
    message := "Cloning repository…" }

/-- The status update `ensure_repository` performs after a successful
clone. -/
def repoReadyUpdate (st : FastWhisperStatus) : FastWhisperStatus :=
  { st with
    installed := true
    message := "Repository ready." }

/-- Tail of `ensure_repository` past the existence fast path: create the
installation root, move to `installing`, launch `git clone` (recorded as an
event; permission fix-ups on the scripts are ignored-error operations with
no modelled effect), and on success mark the repository ready. -/
def ensureRest (e : EnsureEnv) (s : MState) : MState × Except String Unit :=
  match e.createRes with
  | some err => (s, Except.error err)
  | none =>
    let s1 := update_status installingUpdate s
    let s2 := { s1 with events := s1.events ++ [Ev.cloneInvoked] }
    match e.cloneRes with
    | some err => (s2, Except.error err)
    | none =>
      let s3 := { s2 with repoExists := true }
      let s4 := update_status repoReadyUpdate s3
      (s4, Except.ok ())

/-- `FastWhisperManager::ensure_repository`: with `force` an existing
repository directory is recursively deleted first; if the directory then
(still) exists the call returns success immediately; otherwise the clone
path of `ensureRest` runs. -/
def ensure_repository (e : EnsureEnv) (force : Bool) (s : MState) :
    MState × Except String Unit :=
  if force && s.repoExists then
    match e.removeRes with
    | some err => (s, Except.error err)
    | none =>
        ensureRest e { s with repoExists := false, events := s.events ++ [Ev.removeDir] }
  else if s.repoExists then (s, Except.ok ())
  else ensureRest e s

/-- The uniform failure update of `execute`. -/
def failureUpdate (e : String) (st : FastWhisperStatus) : FastWhisperStatus :=
  { st with
    phase := "error"
    error := some e
    message := e }

/-- `FastWhisperManager::execute`: runs the operation under the manager's
lock; on an error it records `phase = "error"`, the error string and the
message, and re-raises the error. -/
def execute (op : MState → MState × Except String FastWhisperStatus) (s : MState) :
    MState × Except String FastWhisperStatus :=
  match op s with
  | (s1, Except.ok st) => (s1, Except.ok st)
  | (s1, Except.error e) =>
      let s2 := update_status (failureUpdate e) s1
      (s2, Except.error e)

/-- `FastWhisperManager::install_and_start`. -/
def install_and_start (e : OpEnv) (s : MState) : MState × Except String FastWhisperStatus :=
  execute (fun s0 =>
    match ensure_repository e.ensure false s0 with
    | (s1, Except.error err) => (s1, Except.error err)
    | (s1, Except.ok _) => start_server e.start "install" s1) s

/-- `FastWhisperManager::start_existing`. -/
def start_existing (e : OpEnv) (s : MState) : MState × Except String FastWhisperStatus :=
  execute (fun s0 =>
    match (if s0.repoExists then (s0, Except.ok ()) else ensure_repository e.ensure false s0) with
    | (s1, Except.error err) => (s1, Except.error err)
    | (s1, Except.ok _) => start_server e.start "start" s1) s

/-- `FastWhisperManager::restart`. -/
def restart (e : OpEnv) (s : MState) : MState × Except String FastWhisperStatus :=
  execute (fun s0 =>
    let s1 := (stop_server e.preStop s0).1
    start_server e.start "restart" s1) s

/-- `FastWhisperManager::reinstall`. -/
def reinstall (e : OpEnv) (s : MState) : MState × Except String FastWhisperStatus :=
  execute (fun s0 =>
    match ensure_repository e.ensure true s0 with
    | (s1, Except.error err) => (s1, Except.error err)
    | (s1, Except.ok _) => start_server e.start "reinstall" s1) s

/-- The status update `stop` performs after a successful `stop_server`. -/
def idleUpdate (st : FastWhisperStatus) : FastWhisperStatus :=
  { st with
    phase := "idle"
    running := false
    message := "Server is stopped." }

/-- `FastWhisperManager::stop`. -/
def stop (e : OpEnv) (s : MState) : MState × Except String FastWhisperStatus :=
  execute (fun s0 =>
    match stop_server e.preStop s0 with
    | (s1, Except.error err) => (s1, Except.error err)
    | (s1, Except.ok _) =>
        let s2 := update_status idleUpdate s1
        (s2, Except.ok s2.status)) s

/-- The five public lifecycle operations. -/
inductive Op where
  | installAndStart : Op
  | startExisting : Op
  | restartOp : Op
  | reinstallOp : Op
  | stopOp : Op
deriving DecidableEq

/-- Dispatch a lifecycle operation. -/
def runOp : Op → OpEnv → MState → MState × Except String FastWhisperStatus
  | Op.installAndStart => install_and_start
  | Op.startExisting => start_existing
  | Op.restartOp => restart
  | Op.reinstallOp => reinstall
  | Op.stopOp => stop

/-- The action label passed to `start_server` by each start-family
operation (and `"stop"` for uniformity). -/
def actionOf : Op → String
  | Op.installAndStart => "install"
  | Op.startExisting => "start"
  | Op.restartOp => "restart"
  | Op.reinstallOp => "reinstall"
  | Op.stopOp => "stop"

/-- The operations that end in `start_server`. -/
def Op.isStartFamily : Op → Bool
  | Op.stopOp => false
  | _ => true

/-- The provisioning / pre-stop prefix each start-family operation runs
before `start_server` (trivial for `restart`, whose pre-stop never fails). -/
def provPart : Op → OpEnv → MState → MState × Except String Unit
  | Op.installAndStart, e, s => ensure_repository e.ensure false s
  | Op.startExisting, e, s =>
      if s.repoExists then (s, Except.ok ()) else ensure_repository e.ensure false s
  | Op.restartOp, e, s => ((stop_server e.preStop s).1, Except.ok ())
  | Op.reinstallOp, e, s => ensure_repository e.ensure true s
  | Op.stopOp, _, s => (s, Except.ok ())

/-! ### The health-wait loop (`wait_for_health`), modelled on probe traces -/

/-- `HEALTH_TIMEOUT` (seconds). -/
def HEALTH_TIMEOUT : Nat := 120

/-- `HEALTH_INTERVAL` (seconds). -/
def HEALTH_INTERVAL : Nat := 2

/-- `STOP_TIMEOUT` (seconds). -/
def STOP_TIMEOUT : Nat := 30

/-- One probe's healthiness: the response mapped over
`response.status() == StatusCode::OK`, with transport errors and request
timeouts (`none`) defaulted to unhealthy via `unwrap_or(false)`. -/
def probeHealthy : Option Nat → Bool
  | some code => code == 200
  | none => false

/-- The error produced on budget exhaustion, one message per awaited
direction. -/
def timeoutMessage (expect_up : Bool) : String :=
  if expect_up then "Local server did not start in time" else "Local server is still running"

/-- The wall-clock budget chosen inside the loop:
`HEALTH_TIMEOUT` when waiting for the server to come up, `STOP_TIMEOUT`
when waiting for it to go down. -/
def healthBudget (expect_up : Bool) : Nat :=
  if expect_up then HEALTH_TIMEOUT else STOP_TIMEOUT

/-- The poll loop of `wait_for_health` on a finite trace of probe outcomes,
each paired with the elapsed seconds observed after that probe: return
success when healthiness matches `expect_up`, otherwise break with the
timeout error once the elapsed time exceeds the budget, otherwise sleep and
poll again.  `none` means the trace ended before the loop decided (the real
loop would keep polling). -/
def waitLoop (expect_up : Bool) (timeout : Nat) :
    List (Option Nat × Nat) → Option (Except String Unit)
  | [] => none
  | (resp, elapsed) :: rest =>
    if probeHealthy resp == expect_up then some (Except.ok ())
    else if timeout < elapsed then some (Except.error (timeoutMessage expect_up))
    else waitLoop expect_up timeout rest

/-- `FastWhisperManager::wait_for_health` on a probe trace. -/
def wait_for_health (expect_up : Bool) (trace : List (Option Nat × Nat)) :
    Option (Except String Unit) :=
  waitLoop expect_up (healthBudget expect_up) trace

/-! ### Invariants from the data-model section of the design -/

/-- The data-model invariant as specified: `running` implies phase
`running`, and `error` is populated exactly in phase `error`. -/
def StatusInvariant (st : FastWhisperStatus) : Prop :=
  (st.running = true → st.phase = "running") ∧ (st.error ≠ none ↔ st.phase = "error")

instance (st : FastWhisperStatus) : Decidable (StatusInvariant st) := by
  unfold StatusInvariant
  infer_instance

/-- The direction of the invariant the code does maintain at every
mutation: in phase `error` the `error` field is populated. -/
def ErrImp (st : FastWhisperStatus) : Prop :=
  st.phase = "error" → st.error ≠ none

instance (st : FastWhisperStatus) : Decidable (ErrImp st) := by
  unfold ErrImp
  infer_instance

/-! ### Helper lemmas: projections and frame reasoning -/

@[simp] theorem update_status_status (f : FastWhisperStatus → FastWhisperStatus) (s : MState) :
    (update_status f s).status = { f s.status with updated_at := s.clock } := rfl

@[simp] theorem update_status_emits (f : FastWhisperStatus → FastWhisperStatus) (s : MState) :
    (update_status f s).emits = s.emits ++ [{ f s.status with updated_at := s.clock }] := rfl

@[simp] theorem update_status_repoExists (f : FastWhisperStatus → FastWhisperStatus)
    (s : MState) : (update_status f s).repoExists = s.repoExists := rfl

@[simp] theorem update_status_events (f : FastWhisperStatus → FastWhisperStatus)
    (s : MState) : (update_status f s).events = s.events := rfl

/-- Equality of every status field a log-line update leaves untouched
(everything but `message`, `log_line` and `updated_at`). -/
def CoreEq (a b : FastWhisperStatus) : Prop :=
  a.phase = b.phase ∧ a.error = b.error ∧ a.running = b.running ∧
  a.installed = b.installed ∧ a.install_dir = b.install_dir ∧
  a.last_action = b.last_action ∧ a.last_success_at = b.last_success_at

theorem coreEq_refl (a : FastWhisperStatus) : CoreEq a a :=
  ⟨rfl, rfl, rfl, rfl, rfl, rfl, rfl⟩

theorem coreEq_trans {a b c : FastWhisperStatus} (h1 : CoreEq a b) (h2 : CoreEq b c) :
    CoreEq a c := by
  obtain ⟨p1, e1, r1, i1, d1, l1, s1⟩ := h1
  obtain ⟨p2, e2, r2, i2, d2, l2, s2⟩ := h2
  exact ⟨p1.trans p2, e1.trans e2, r1.trans r2, i1.trans i2, d1.trans d2,
    l1.trans l2, s1.trans s2⟩

/-- The log-line loop of `run_script` changes nothing but `message`,
`log_line` and `updated_at`, leaves the filesystem view and event trace
alone, and every snapshot it emits agrees with the entry status on all
other fields. -/
theorem foldl_logStep_spec (lines : List String) (s : MState) :
    CoreEq (List.foldl logStep s lines).status s.status ∧
    (List.foldl logStep s lines).repoExists = s.repoExists ∧
    (List.foldl logStep s lines).events = s.events ∧
    ∃ L, (List.foldl logStep s lines).emits = s.emits ++ L ∧
      ∀ st ∈ L, CoreEq st s.status := by
  induction lines generalizing s with
  | nil =>
      exact ⟨coreEq_refl _, rfl, rfl, [], by simp, by simp⟩
  | cons line rest ih =>
      by_cases hline : line.trim.isEmpty
      · have hstep : logStep s line = s := by
          simp [logStep, hline]
        simpa [List.foldl, hstep] using ih s
      · have hstep : logStep s line = update_status (applyLogLine line.trim) s := by
          simp [logStep, hline]
        have hcore : CoreEq (update_status (applyLogLine line.trim) s).status s.status := by
          refine ⟨?_, ?_, ?_, ?_, ?_, ?_, ?_⟩ <;> simp [applyLogLine]
        obtain ⟨c1, r1, e1, L, hL, hall⟩ := ih (update_status (applyLogLine line.trim) s)
        refine ⟨?_, ?_, ?_, ?_⟩
        · simpa [List.foldl, hstep] using coreEq_trans c1 hcore
        · simp [List.foldl, hstep, r1]
        · simp [List.foldl, hstep, e1]
        · refine ⟨{ applyLogLine line.trim s.status with updated_at := s.clock } :: L, ?_, ?_⟩
          · simp [List.foldl, hstep] at hL ⊢
            simp [hL]
          · intro st hst
            rcases List.mem_cons.mp hst with h | h
            · subst h
              exact hcore
            · exact coreEq_trans (hall st h) hcore

/-- `run_script` returns the script's result unchanged. -/
@[simp] theorem run_script_snd (r : ScriptRun) (s : MState) :
    (run_script r s).2 = r.result := rfl

/-- State effect of `run_script`: exactly the log-line loop. -/
theorem run_script_spec (r : ScriptRun) (s : MState) :
    CoreEq (run_script r s).1.status s.status ∧
    (run_script r s).1.repoExists = s.repoExists ∧
    (run_script r s).1.events = s.events ∧
    ∃ L, (run_script r s).1.emits = s.emits ++ L ∧
      ∀ st ∈ L, CoreEq st s.status :=
  foldl_logStep_spec r.lines s

/-- The frame relation between a state and the state any lifecycle code
path leaves behind: `install_dir` is untouched, the `error`-populated-in-
phase-`error` property is preserved, and every newly emitted snapshot also
keeps `install_dir` and satisfies the preserved property. -/
def Frame (s0 s1 : MState) : Prop :=
  s1.status.install_dir = s0.status.install_dir ∧
  (ErrImp s0.status → ErrImp s1.status) ∧
  ∃ L, s1.emits = s0.emits ++ L ∧
    ∀ st ∈ L, st.install_dir = s0.status.install_dir ∧ (ErrImp s0.status → ErrImp st)

theorem frame_refl (s : MState) : Frame s s :=
  ⟨rfl, id, [], by simp, by simp⟩

theorem frame_trans {s0 s1 s2 : MState} (h1 : Frame s0 s1) (h2 : Frame s1 s2) :
    Frame s0 s2 := by
  obtain ⟨d1, e1, L1, hL1, ha1⟩ := h1
  obtain ⟨d2, e2, L2, hL2, ha2⟩ := h2
  refine ⟨d2.trans d1, fun h => e2 (e1 h), L1 ++ L2, by simp [hL2, hL1], ?_⟩
  intro st hst
  rcases List.mem_append.mp hst with h | h
  · exact ha1 st h
  · exact ⟨(ha2 st h).1.trans d1, fun h0 => (ha2 st h).2 (e1 h0)⟩

/-- A single `update_status` call is a frame step as soon as its mutation
keeps `install_dir` and preserves `ErrImp`. -/
theorem frame_update (f : FastWhisperStatus → FastWhisperStatus) (s : MState)
    (h1 : (f s.status).install_dir = s.status.install_dir)
    (h2 : ErrImp s.status → ErrImp (f s.status)) :
    Frame s (update_status f s) := by
  have hstamp : ∀ st : FastWhisperStatus,
      ErrImp { st with updated_at := s.clock } ↔ ErrImp st := by
    intro st
    constructor <;> intro h <;> simpa [ErrImp] using h
  refine ⟨by simpa using h1, ?_, [{ f s.status with updated_at := s.clock }], by simp, ?_⟩
  · intro h
    simpa [update_status, hstamp] using h2 h
  · intro st hst
    rcases List.mem_singleton.mp hst with rfl
    exact ⟨by simpa using h1, fun h => (hstamp _).mpr (h2 h)⟩

/-- A state change that leaves `status` and `emits` alone is a frame step. -/
theorem frame_of_statusEq {s0 s1 : MState} (hst : s1.status = s0.status)
    (hem : s1.emits = s0.emits) : Frame s0 s1 := by
  refine ⟨by rw [hst], ?_, [], by simp [hem], by simp⟩
  intro h
  rw [hst]
  exact h

/-- `CoreEq`-shaped effects (the log-line loop) are frame steps. -/
theorem frame_of_core {s0 s1 : MState} (hcore : CoreEq s1.status s0.status)
    (hem : ∃ L, s1.emits = s0.emits ++ L ∧ ∀ st ∈ L, CoreEq st s0.status) :
    Frame s0 s1 := by
  obtain ⟨L, hL, hall⟩ := hem
  refine ⟨hcore.2.2.2.2.1, ?_, L, hL, ?_⟩
  · intro h hphase
    rw [hcore.2.1]
    exact h (hcore.1 ▸ hphase)
  · intro st hst
    refine ⟨(hall st hst).2.2.2.2.1, ?_⟩
    intro h hphase
    rw [(hall st hst).2.1]
    exact h ((hall st hst).1 ▸ hphase)

theorem run_script_frame (r : ScriptRun) (s : MState) : Frame s (run_script r s).1 := by
  obtain ⟨hcore, _, _, L, hL, hall⟩ := run_script_spec r s
  exact frame_of_core hcore ⟨L, hL, hall⟩

/-- `stop_server` always reports success. -/
theorem stop_server_snd (e : StopEnv) (s : MState) : (stop_server e s).2 = Except.ok () := by
  unfold stop_server
  split <;> rfl

theorem stop_server_frame (e : StopEnv) (s : MState) : Frame s (stop_server e s).1 := by
  unfold stop_server
  by_cases h : s.repoExists
  · simpa [h] using run_script_frame e.script s
  · simpa [h] using frame_refl s

theorem startingUpdate_frame (s : MState) : Frame s (update_status startingUpdate s) := by
  refine frame_update _ _ rfl ?_
  intro _ h
  have h' : "starting" = "error" := h
  exact absurd h' (by decide)

theorem scriptFailUpdate_frame (msg : String) (s : MState) :
    Frame s (update_status (scriptFailUpdate msg) s) := by
  refine frame_update _ _ rfl ?_
  intro _ _
  exact fun hc => Option.noConfusion hc

theorem healthFailUpdate_frame (err : String) (s : MState) :
    Frame s (update_status (healthFailUpdate err) s) := by
  refine frame_update _ _ rfl ?_
  intro _ _
  exact fun hc => Option.noConfusion hc

theorem failureUpdate_frame (e : String) (s : MState) :
    Frame s (update_status (failureUpdate e) s) := by
  refine frame_update _ _ rfl ?_
  intro _ _
  exact fun hc => Option.noConfusion hc

theorem runningUpdate_frame (action : String) (now : Nat) (s : MState) :
    Frame s (update_status (runningUpdate action now) s) := by
  refine frame_update _ _ rfl ?_
  intro _ h
  have h' : "running" = "error" := h
  exact absurd h' (by decide)

theorem installingUpdate_frame (s : MState) : Frame s (update_status installingUpdate s) := by
  refine frame_update _ _ rfl ?_
  intro _ h
  have h' : "installing" = "error" := h
  exact absurd h' (by decide)

theorem idleUpdate_frame (s : MState) : Frame s (update_status idleUpdate s) := by
  refine frame_update _ _ rfl ?_
  intro _ h
  have h' : "idle" = "error" := h
  exact absurd h' (by decide)

theorem repoReadyUpdate_frame (s : MState) : Frame s (update_status repoReadyUpdate s) := by
  refine frame_update _ _ rfl ?_
  exact fun h => h

theorem warningsUpdate_frame (s : MState) (h : s.status.phase = "starting") :
    Frame s (update_status warningsUpdate s) := by
  refine frame_update _ _ rfl ?_
  intro _ hph
  have h' : s.status.phase = "error" := hph
  rw [h] at h'
  exact absurd h' (by decide)

theorem ensureRest_frame (e : EnsureEnv) (s : MState) : Frame s (ensureRest e s).1 := by
  unfold ensureRest
  rcases e.createRes with _ | err
  · rcases e.cloneRes with _ | err
    · have hstep1 : Frame (update_status installingUpdate s)
          { update_status installingUpdate s with
            events := (update_status installingUpdate s).events ++ [Ev.cloneInvoked] } :=
        frame_of_statusEq rfl rfl
      have hstep2 : Frame
          { update_status installingUpdate s with
            events := (update_status installingUpdate s).events ++ [Ev.cloneInvoked] }
          { { update_status installingUpdate s with
              events := (update_status installingUpdate s).events ++ [Ev.cloneInvoked] } with
            repoExists := true } :=
        frame_of_statusEq rfl rfl
      exact frame_trans (installingUpdate_frame s)
        (frame_trans hstep1 (frame_trans hstep2 (repoReadyUpdate_frame _)))
    · refine frame_trans (installingUpdate_frame s) ?_
      exact frame_of_statusEq rfl rfl
  · exact frame_refl s

theorem ensure_repository_frame (e : EnsureEnv) (force : Bool) (s : MState) :
    Frame s (ensure_repository e force s).1 := by
  unfold ensure_repository
  cases force with
  | false =>
      cases hr : s.repoExists with
      | true => simpa [hr] using frame_refl s
      | false => simpa [hr] using ensureRest_frame e s
  | true =>
      cases hr : s.repoExists with
      | false => simpa [hr] using ensureRest_frame e s
      | true =>
          rcases hrm : e.removeRes with _ | err
          · simp only [hr, hrm, Bool.and_true, Bool.and_self, if_true]
            have hstep : Frame s
                { s with repoExists := false, events := s.events ++ [Ev.removeDir] } :=
              frame_of_statusEq rfl rfl
            exact frame_trans hstep (ensureRest_frame e _)
          · simpa [hr, hrm] using frame_refl s

/-- Emitted snapshots are only ever appended. -/
theorem emits_mono (f : FastWhisperStatus → FastWhisperStatus) (s : MState)
    {st : FastWhisperStatus} (h : st ∈ s.emits) : st ∈ (update_status f s).emits := by
  simp only [update_status_emits, List.mem_append]
  exact Or.inl h

/-- Every `update_status` call emits the stamped new snapshot. -/
theorem update_status_mem_emits (f : FastWhisperStatus → FastWhisperStatus) (s : MState) :
    { f s.status with updated_at := s.clock } ∈ (update_status f s).emits := by
  simp

theorem start_server_frame (e : StartEnv) (action : String) (s : MState) :
    Frame s (start_server e action s).1 := by
  rcases hh : e.healthUp with err | u
  · rcases hsr : e.script.result with _ | msg
    · simp only [start_server, hh, hsr]
      refine frame_trans (stop_server_frame e.preStop s) ?_
      refine frame_trans (startingUpdate_frame _) ?_
      refine frame_trans (run_script_frame e.script _) ?_
      exact healthFailUpdate_frame err _
    · simp only [start_server, hh, hsr]
      refine frame_trans (stop_server_frame e.preStop s) ?_
      refine frame_trans (startingUpdate_frame _) ?_
      refine frame_trans (run_script_frame e.script _) ?_
      refine frame_trans (scriptFailUpdate_frame msg _) ?_
      exact healthFailUpdate_frame err _
  · rcases hsr : e.script.result with _ | msg
    · simp only [start_server, hh, hsr]
      refine frame_trans (stop_server_frame e.preStop s) ?_
      refine frame_trans (startingUpdate_frame _) ?_
      refine frame_trans (run_script_frame e.script _) ?_
      exact runningUpdate_frame _ _ _
    · simp only [start_server, hh, hsr]
      refine frame_trans (stop_server_frame e.preStop s) ?_
      refine frame_trans (startingUpdate_frame _) ?_
      refine frame_trans (run_script_frame e.script _) ?_
      refine frame_trans (scriptFailUpdate_frame msg _) ?_
      refine frame_trans (warningsUpdate_frame _ ?_) ?_
      · exact
          (run_script_spec e.script (update_status startingUpdate (stop_server e.preStop s).1)).1.1
      · exact runningUpdate_frame _ _ _

/-- Outcome of `start_server` when the upward health wait succeeds: the
returned status is the final one, in phase `running` with the error
cleared, the action recorded, and the action-stamped message. -/
theorem start_server_ok_final (e : StartEnv) (action : String) (s : MState)
    (u : Unit) (hh : e.healthUp = Except.ok u) :
    (start_server e action s).2 = Except.ok (start_server e action s).1.status ∧
    (start_server e action s).1.status.phase = "running" ∧
    (start_server e action s).1.status.running = true ∧
    (start_server e action s).1.status.error = none ∧
    (start_server e action s).1.status.message = "Server " ++ action ++ "ed." ∧
    (start_server e action s).1.status.last_action = some action := by
  have hcore :=
    (run_script_spec e.script (update_status startingUpdate (stop_server e.preStop s).1)).1
  rcases hsr : e.script.result with _ | msg
  · simp only [start_server, hh, hsr]
    refine ⟨?_, ?_, ?_, ?_, ?_, ?_⟩ <;> first | trivial | exact hcore.2.1
  · simp only [start_server, hh, hsr]
    refine ⟨?_, ?_, ?_, ?_, ?_, ?_⟩ <;> trivial

/-- When the start script failed but the health wait succeeded, a snapshot
with the warnings message is emitted. -/
theorem start_server_warn_emit (e : StartEnv) (action : String) (s : MState)
    (u : Unit) (hh : e.healthUp = Except.ok u) (msg : String)
    (hsr : e.script.result = some msg) :
    ∃ st ∈ (start_server e action s).1.emits,
      st.message = "Server started with warnings." := by
  simp only [start_server, hh, hsr]
  exact ⟨_, emits_mono _ _ (update_status_mem_emits warningsUpdate _), rfl⟩

/-- Outcome of `start_server` when the upward health wait fails: the error
returned is the script's if the script failed, otherwise the probe's, and
the final status is `phase = "error"`, `running = false`, with the probe
error recorded. -/
theorem start_server_err_final (e : StartEnv) (action : String) (s : MState)
    (pe : String) (hh : e.healthUp = Except.error pe) :
    (start_server e action s).2 = Except.error (e.script.result.getD pe) ∧
    (start_server e action s).1.status.phase = "error" ∧
    (start_server e action s).1.status.running = false ∧
    (start_server e action s).1.status.error = some pe ∧
    (start_server e action s).1.status.message = pe := by
  rcases hsr : e.script.result with _ | msg <;> simp only [start_server, hh, hsr] <;>
    refine ⟨?_, ?_, ?_, ?_, ?_⟩ <;> trivial

/-- `execute` passes a successful operation through unchanged. -/
theorem execute_ok (opf : MState → MState × Except String FastWhisperStatus)
    (s s1 : MState) (st : FastWhisperStatus) (h : opf s = (s1, Except.ok st)) :
    execute opf s = (s1, Except.ok st) := by
  simp [execute, h]

/-- `execute` wraps a failing operation with the uniform failure update and
re-raises the same error. -/
theorem execute_err (opf : MState → MState × Except String FastWhisperStatus)
    (s s1 : MState) (err : String) (h : opf s = (s1, Except.error err)) :
    execute opf s = (update_status (failureUpdate err) s1, Except.error err) := by
  simp [execute, h]

/-- Whenever `execute` reports an error, the stored status agrees with it:
phase `error`, the error field and the message all record that error. -/
theorem execute_error_spec (opf : MState → MState × Except String FastWhisperStatus)
    (s : MState) (err : String) (h : (execute opf s).2 = Except.error err) :
    (execute opf s).1.status.phase = "error" ∧
    (execute opf s).1.status.error = some err ∧
    (execute opf s).1.status.message = err := by
  rcases hop : opf s with ⟨s1, r⟩
  cases r with
  | ok st =>
      rw [execute_ok opf s s1 st hop] at h
      exact absurd h (by simp)
  | error e0 =>
      rw [execute_err opf s s1 e0 hop] at h ⊢
      simp only at h
      have he : e0 = err := by
        injection h
      subst he
      exact ⟨rfl, rfl, rfl⟩

theorem execute_frame (opf : MState → MState × Except String FastWhisperStatus)
    (s : MState) (hop : Frame s (opf s).1) : Frame s (execute opf s).1 := by
  rcases hop2 : opf s with ⟨s1, r⟩
  rw [hop2] at hop
  cases r with
  | ok st =>
      rw [execute_ok opf s s1 st hop2]
      exact hop
  | error e0 =>
      rw [execute_err opf s s1 e0 hop2]
      exact frame_trans hop (failureUpdate_frame e0 s1)

/-- Every lifecycle operation is a frame step: it never touches
`install_dir` and it preserves the populated-error-in-error-phase property,
both on the stored status and on every snapshot it emits. -/
theorem runOp_frame (op : Op) (e : OpEnv) (s : MState) : Frame s (runOp op e s).1 := by
  cases op with
  | installAndStart =>
      simp only [runOp, install_and_start]
      refine execute_frame _ s ?_
      rcases hen : ensure_repository e.ensure false s with ⟨s1, r⟩
      have h1 : Frame s s1 := by
        have := ensure_repository_frame e.ensure false s
        rwa [hen] at this
      cases r with
      | ok u => simpa [hen] using frame_trans h1 (start_server_frame e.start "install" s1)
      | error err => simpa [hen] using h1
  | startExisting =>
      simp only [runOp, start_existing]
      refine execute_frame _ s ?_
      cases hr : s.repoExists with
      | true => simpa [hr] using start_server_frame e.start "start" s
      | false =>
          rcases hen : ensure_repository e.ensure false s with ⟨s1, r⟩
          have h1 : Frame s s1 := by
            have := ensure_repository_frame e.ensure false s
            rwa [hen] at this
          cases r with
          | ok u => simpa [hr, hen] using frame_trans h1 (start_server_frame e.start "start" s1)
          | error err => simpa [hr, hen] using h1
  | restartOp =>
      simp only [runOp, restart]
      refine execute_frame _ s ?_
      exact frame_trans (stop_server_frame e.preStop s)
        (start_server_frame e.start "restart" _)
  | reinstallOp =>
      simp only [runOp, reinstall]
      refine execute_frame _ s ?_
      rcases hen : ensure_repository e.ensure true s with ⟨s1, r⟩
      have h1 : Frame s s1 := by
        have := ensure_repository_frame e.ensure true s
        rwa [hen] at this
      cases r with
      | ok u => simpa [hen] using frame_trans h1 (start_server_frame e.start "reinstall" s1)
      | error err => simpa [hen] using h1
  | stopOp =>
      simp only [runOp, stop]
      refine execute_frame _ s ?_
      rcases hss : stop_server e.preStop s with ⟨s1, r⟩
      have h1 : Frame s s1 := by
        have := stop_server_frame e.preStop s
        rwa [hss] at this
      cases r with
      | ok u => simpa [hss] using frame_trans h1 (idleUpdate_frame s1)
      | error err => simpa [hss] using h1

theorem pair_eta_of_snd {α β : Type} (p : α × β) (b : β) (h : p.2 = b) : p = (p.1, b) := by
  rw [← h]

theorem execute_congr {opf opg : MState → MState × Except String FastWhisperStatus}
    (s : MState) (h : opf s = opg s) : execute opf s = execute opg s := by
  unfold execute
  rw [h]

/-- Result and final status of `execute` around a failing operation. -/
theorem execute_final_of_err (opf : MState → MState × Except String FastWhisperStatus)
    (s s1 : MState) (err : String) (h : opf s = (s1, Except.error err)) :
    (execute opf s).2 = Except.error err ∧
    (execute opf s).1.status.phase = "error" ∧
    (execute opf s).1.status.error = some err ∧
    (execute opf s).1.status.message = err ∧
    (execute opf s).1.status.running = s1.status.running := by
  rw [execute_err opf s s1 err h]
  exact ⟨rfl, rfl, rfl, rfl, rfl⟩

/-- A start-family operation whose provisioning prefix succeeded is
`execute` around the corresponding `start_server` call. -/
theorem runOp_start_eq (op : Op) (e : OpEnv) (s s1 : MState)
    (hfam : op.isStartFamily = true) (hprov : provPart op e s = (s1, Except.ok ())) :
    runOp op e s = execute (fun _ => start_server e.start (actionOf op) s1) s := by
  cases op with
  | installAndStart =>
      simp only [provPart] at hprov
      simp only [runOp, install_and_start, actionOf]
      exact execute_congr s (by simp only [hprov])
  | startExisting =>
      simp only [provPart] at hprov
      simp only [runOp, start_existing, actionOf]
      exact execute_congr s (by simp only [hprov])
  | restartOp =>
      simp only [provPart] at hprov
      have h1 : (stop_server e.preStop s).1 = s1 := by
        have := congrArg Prod.fst hprov
        simpa using this
      simp only [runOp, restart, actionOf]
      refine execute_congr s ?_
      show start_server e.start "restart" (stop_server e.preStop s).1
        = start_server e.start "restart" s1
      rw [h1]
  | reinstallOp =>
      simp only [provPart] at hprov
      simp only [runOp, reinstall, actionOf]
      exact execute_congr s (by simp only [hprov])
  | stopOp => simp [Op.isStartFamily] at hfam

/-- `stop` in closed form: stop the server (always reported as success) and
move the status to `idle`. -/
theorem stop_eq (e : OpEnv) (s : MState) :
    stop e s =
      (update_status idleUpdate (stop_server e.preStop s).1,
       Except.ok (update_status idleUpdate (stop_server e.preStop s).1).status) := by
  have h2 := stop_server_snd e.preStop s
  have hss := pair_eta_of_snd _ _ h2
  unfold stop
  rw [execute_ok _ _ _ _ (by rw [hss])]

/-! ### Concrete fixtures for witnesses and counterexamples -/

/-- The manager's initial state (`FastWhisperManager::new`), with the given
on-disk repository situation. -/
def initState (repo : Bool) : MState :=
  { status := FastWhisperStatus.new "Local server is not installed." 0
    repoExists := repo
    events := []
    emits := []
    clock := 1 }

/-- A script run with no output that succeeds. -/
def noopScript : ScriptRun := { lines := [], result := none }

/-- A benign stop environment. -/
def okStop : StopEnv := { script := noopScript, healthDown := Except.ok () }

/-- A provisioning environment in which every step succeeds. -/
def okEnsure : EnsureEnv := { removeRes := none, createRes := none, cloneRes := none }

/-- An operation environment in which everything succeeds. -/
def benignOpEnv : OpEnv :=
  { ensure := okEnsure
    start := { preStop := okStop, script := noopScript, healthUp := Except.ok () }
    preStop := okStop }

/-- An operation environment whose start script fails while the health
probe succeeds. -/
def warnEnv : OpEnv :=
  { ensure := okEnsure
    start :=
      { preStop := okStop
        script := { lines := [], result := some "start script failed" }
        healthUp := Except.ok () }
    preStop := okStop }

/-- An operation environment whose start script fails and whose upward
health wait times out. -/
def probeFailOpEnv : OpEnv :=
  { ensure := okEnsure
    start :=
      { preStop := okStop
        script := { lines := [], result := some "start script failed" }
        healthUp := Except.error "Local server did not start in time" }
    preStop := okStop }

/-- An operation environment whose `git clone` step fails. -/
def cloneFailOpEnv : OpEnv :=
  { ensure :=
      { removeRes := none
        createRes := none
        cloneRes := some "git clone exited with status 128" }
    start := { preStop := okStop, script := noopScript, healthUp := Except.ok () }
    preStop := okStop }

/-- A status left behind by a failed operation. -/
def errorState : MState :=
  { status :=
      { installed := true
        running := false
        phase := "error"
        message := "start script failed"
        error := some "start script failed"
        last_action := none
        last_success_at := none
        log_line := none
        install_dir := none
        updated_at := 5 }
    repoExists := true
    events := []
    emits := []
    clock := 6 }

/-- A status left behind by a successful start. -/
def runningState : MState :=
  { status :=
      { installed := true
        running := true
        phase := "running"
        message := "Server started."
        error := none
        last_action := some "start"
        last_success_at := some 9
        log_line := none
        install_dir := none
        updated_at := 9 }
    repoExists := true
    events := []
    emits := []
    clock := 10 }

/-! ### The health-wait loop: reaching a matching probe, and timing out -/

theorem waitLoop_reaches_match (expect : Bool) (t : Nat) (resp : Option Nat) (el : Nat)
    (rest pre : List (Option Nat × Nat))
    (hpre : ∀ p ∈ pre, probeHealthy p.1 ≠ expect ∧ p.2 ≤ t)
    (hmatch : probeHealthy resp = expect) :
    waitLoop expect t (pre ++ (resp, el) :: rest) = some (Except.ok ()) := by
  induction pre with
  | nil => simp [waitLoop, hmatch]
  | cons p pre ih =>
      obtain ⟨pr, pel⟩ := p
      have hp := hpre (pr, pel) (List.mem_cons_self _ _)
      have hne : (probeHealthy pr == expect) = false := by
        simp only [beq_eq_false_iff_ne, ne_eq]
        exact hp.1
      have hle : ¬ t < pel := Nat.not_lt.mpr hp.2
      simp only [List.cons_append, waitLoop, hne, Bool.false_eq_true, if_false, hle]
      exact ih fun q hq => hpre q (List.mem_cons_of_mem _ hq)

theorem waitLoop_times_out (expect : Bool) (t : Nat) (resp : Option Nat) (el : Nat)
    (rest pre : List (Option Nat × Nat))
    (hpre : ∀ p ∈ pre, probeHealthy p.1 ≠ expect ∧ p.2 ≤ t)
    (hmiss : probeHealthy resp ≠ expect) (hel : t < el) :
    waitLoop expect t (pre ++ (resp, el) :: rest)
      = some (Except.error (timeoutMessage expect)) := by
  induction pre with
  | nil =>
      have hne : (probeHealthy resp == expect) = false := by
        simp only [beq_eq_false_iff_ne, ne_eq]
        exact hmiss
      simp [waitLoop, hne, hel]
  | cons p pre ih =>
      obtain ⟨pr, pel⟩ := p
      have hp := hpre (pr, pel) (List.mem_cons_self _ _)
      have hne : (probeHealthy pr == expect) = false := by
        simp only [beq_eq_false_iff_ne, ne_eq]
        exact hp.1
      have hle : ¬ t < pel := Nat.not_lt.mpr hp.2
      simp only [List.cons_append, waitLoop, hne, Bool.false_eq_true, if_false, hle]
      exact ih fun q hq => hpre q (List.mem_cons_of_mem _ hq)

/-! ### Claims -/

/-- C7: `wait_for(expect_up)` counts a probe as healthy exactly on HTTP
status 200 (transport errors, request timeouts and non-200 statuses are
unhealthy), returns success at the first probe whose healthiness equals
`expect_up`, and on exhausting its budget — 120 seconds when `expect_up`,
30 seconds otherwise — fails with a timeout error identifying the awaited
direction. -/
theorem C7_wait_for_health_contract (expect_up : Bool) :
    (∀ resp, probeHealthy resp = true ↔ resp = some 200) ∧
    (healthBudget true = 120 ∧ healthBudget false = 30) ∧
    (∀ pre resp el rest,
      (∀ p ∈ pre, probeHealthy p.1 ≠ expect_up ∧ p.2 ≤ healthBudget expect_up) →
      probeHealthy resp = expect_up →
      wait_for_health expect_up (pre ++ (resp, el) :: rest) = some (Except.ok ())) ∧
    (∀ pre resp el rest,
      (∀ p ∈ pre, probeHealthy p.1 ≠ expect_up ∧ p.2 ≤ healthBudget expect_up) →
      probeHealthy resp ≠ expect_up → healthBudget expect_up < el →
      wait_for_health expect_up (pre ++ (resp, el) :: rest)
        = some (Except.error (timeoutMessage expect_up))) ∧
    timeoutMessage true ≠ timeoutMessage false := by
  refine ⟨?_, by decide, ?_, ?_, by decide⟩
  · intro resp
    cases resp <;> simp [probeHealthy]
  · intro pre resp el rest hpre hm
    exact waitLoop_reaches_match expect_up _ resp el rest pre hpre hm
  · intro pre resp el rest hpre hm hel
    exact waitLoop_times_out expect_up _ resp el rest pre hpre hm hel

/-- Witness for C7: a transport error followed by a 200 succeeds the upward
wait; a still-healthy probe past the 30-second budget times the downward
wait out. -/
theorem C7_witness :
    wait_for_health true [(none, 2), (some 200, 4)] = some (Except.ok ()) ∧
    wait_for_health false [(some 200, 31)] = some (Except.error (timeoutMessage false)) := by
  constructor
  · exact (C7_wait_for_health_contract true).2.2.1 [(none, 2)] (some 200) 4 []
      (by decide) (by decide)
  · exact (C7_wait_for_health_contract false).2.2.2.1 [] (some 200) 31 []
      (by decide) (by decide) (by decide)

/-- C5: `ensure(force=false)` is idempotent — when the installation
directory exists it returns success immediately with no state change at all
(no fetch event, no status mutation, no emission), and a second call does
the same. -/
theorem C5_ensure_idempotent (e1 e2 : EnsureEnv) (s : MState) (h : s.repoExists = true) :
    ensure_repository e1 false s = (s, Except.ok ()) ∧
    ensure_repository e2 false (ensure_repository e1 false s).1 = (s, Except.ok ()) := by
  have h1 : ensure_repository e1 false s = (s, Except.ok ()) := by
    simp [ensure_repository, h]
  refine ⟨h1, ?_⟩
  rw [h1]
  simp [ensure_repository, h]

/-- Witness for C5 at the initial state with an existing installation. -/
theorem C5_witness :
    (initState true).repoExists = true ∧
    ensure_repository okEnsure false (initState true) = (initState true, Except.ok ()) ∧
    ensure_repository okEnsure false (ensure_repository okEnsure false (initState true)).1
      = (initState true, Except.ok ()) :=
  ⟨rfl,
    (C5_ensure_idempotent okEnsure okEnsure (initState true) rfl).1,
    (C5_ensure_idempotent okEnsure okEnsure (initState true) rfl).2⟩

/-- Counterexample to C6 as stated: when `remove_dir_all` fails with an I/O
error, `ensure(force=true)` on an existing installation performs neither the
deletion nor any fetch — it returns that error with the event trace
unchanged and the directory still present. -/
theorem C6_counterexample :
    (initState true).repoExists = true ∧
    (ensure_repository
        { removeRes := some "Permission denied", createRes := none, cloneRes := none }
        true (initState true)).1.events = [] ∧
    (ensure_repository
        { removeRes := some "Permission denied", createRes := none, cloneRes := none }
        true (initState true)).1.repoExists = true ∧
    (ensure_repository
        { removeRes := some "Permission denied", createRes := none, cloneRes := none }
        true (initState true)).2 = Except.error "Permission denied" :=
  ⟨rfl, rfl, rfl, rfl⟩

/-- C6 (amended): on `ensure(force=true)` with an existing installation
directory, provided neither the recursive deletion nor the creation of the
installation root fails, the directory is first recursively deleted and
then a fresh `git clone` is launched — in that order — even though the
directory existed before the call. -/
theorem C6_force_refetch (e : EnsureEnv) (s : MState) (h : s.repoExists = true)
    (hrm : e.removeRes = none) (hcr : e.createRes = none) :
    (ensure_repository e true s).1.events = s.events ++ [Ev.removeDir, Ev.cloneInvoked] := by
  rcases hcl : e.cloneRes with _ | err <;>
    simp [ensure_repository, h, hrm, ensureRest, hcr, hcl, update_status]

/-- Witness for C6: a forced reinstall from the initial state deletes and
then clones. -/
theorem C6_witness :
    (ensure_repository okEnsure true (initState true)).1.events
      = (initState true).events ++ [Ev.removeDir, Ev.cloneInvoked] :=
  C6_force_refetch okEnsure (initState true) rfl rfl rfl

/-- C9: `stop_server` is a no-op success when no installation directory
exists, and otherwise reports success whatever the stop script and the
downward health wait did; `stop` therefore succeeds with a final status in
phase `idle` with `running = false`. -/
theorem C9_stop_semantics (d : StopEnv) (t : MState) (e : OpEnv) (s : MState) :
    (t.repoExists = false → stop_server d t = (t, Except.ok ())) ∧
    (stop_server d t).2 = Except.ok () ∧
    (stop e s).2 = Except.ok ((stop e s).1.status) ∧
    (stop e s).1.status.phase = "idle" ∧
    (stop e s).1.status.running = false := by
  refine ⟨?_, stop_server_snd d t, ?_, ?_, ?_⟩
  · intro h
    simp [stop_server, h]
  · rw [stop_eq]
  · rw [stop_eq]
    rfl
  · rw [stop_eq]
    rfl

/-- Witness for C9 on concrete states with and without an installation. -/
theorem C9_witness :
    (initState false).repoExists = false ∧
    stop_server okStop (initState false) = (initState false, Except.ok ()) ∧
    (stop benignOpEnv (initState true)).1.status.phase = "idle" ∧
    (stop benignOpEnv (initState true)).1.status.running = false :=
  ⟨rfl,
    (C9_stop_semantics okStop (initState false) benignOpEnv (initState true)).1 rfl,
    (C9_stop_semantics okStop (initState false) benignOpEnv (initState true)).2.2.2.1,
    (C9_stop_semantics okStop (initState false) benignOpEnv (initState true)).2.2.2.2⟩

/-- C3: whenever a lifecycle operation returns an error, the stored status
was mutated to phase `error` with the error field and the message recording
that same error string — the caller's error and the stored status agree. -/
theorem C3_error_agreement (op : Op) (e : OpEnv) (s : MState) (err : String)
    (h : (runOp op e s).2 = Except.error err) :
    (runOp op e s).1.status.phase = "error" ∧
    (runOp op e s).1.status.error = some err ∧
    (runOp op e s).1.status.message = err := by
  cases op <;> exact execute_error_spec _ _ _ h

/-- Witness for C3: a failed clone during `install_and_start` leaves the
clone error in phase, error field and message, and returns the same
error. -/
theorem C3_witness :
    (runOp Op.installAndStart cloneFailOpEnv (initState false)).2
      = Except.error "git clone exited with status 128" ∧
    (runOp Op.installAndStart cloneFailOpEnv (initState false)).1.status.phase = "error" ∧
    (runOp Op.installAndStart cloneFailOpEnv (initState false)).1.status.error
      = some "git clone exited with status 128" ∧
    (runOp Op.installAndStart cloneFailOpEnv (initState false)).1.status.message
      = "git clone exited with status 128" :=
  ⟨rfl,
    (C3_error_agreement Op.installAndStart cloneFailOpEnv (initState false) _ rfl).1,
    (C3_error_agreement Op.installAndStart cloneFailOpEnv (initState false) _ rfl).2.1,
    (C3_error_agreement Op.installAndStart cloneFailOpEnv (initState false) _ rfl).2.2⟩

/-- C8: a start-family operation whose provisioning prefix succeeded but
whose upward health wait failed returns the start script's error if the
script failed and otherwise the probe's error, and leaves the status in
phase `error` with `running = false`. -/
theorem C8_probe_failure (op : Op) (e : OpEnv) (s s1 : MState) (pe : String)
    (hfam : op.isStartFamily = true)
    (hprov : provPart op e s = (s1, Except.ok ()))
    (hh : e.start.healthUp = Except.error pe) :
    (runOp op e s).2 = Except.error (e.start.script.result.getD pe) ∧
    (runOp op e s).1.status.phase = "error" ∧
    (runOp op e s).1.status.running = false := by
  rw [runOp_start_eq op e s s1 hfam hprov]
  have hstart := start_server_err_final e.start (actionOf op) s1 pe hh
  have hS := pair_eta_of_snd _ _ hstart.1
  have hfin := execute_final_of_err (fun _ => start_server e.start (actionOf op) s1) s
    (start_server e.start (actionOf op) s1).1 (e.start.script.result.getD pe) hS
  refine ⟨hfin.1, hfin.2.1, ?_⟩
  rw [hfin.2.2.2.2]
  exact hstart.2.2.1

/-- Witness for C8: `start_existing` with a failing start script and a
timed-out upward health wait returns the script's error with the status in
phase `error`, not running. -/
theorem C8_witness :
    provPart Op.startExisting probeFailOpEnv (initState true)
      = (initState true, Except.ok ()) ∧
    (runOp Op.startExisting probeFailOpEnv (initState true)).2
      = Except.error "start script failed" ∧
    (runOp Op.startExisting probeFailOpEnv (initState true)).1.status.phase = "error" ∧
    (runOp Op.startExisting probeFailOpEnv (initState true)).1.status.running = false :=
  ⟨rfl,
    (C8_probe_failure Op.startExisting probeFailOpEnv (initState true) (initState true)
      "Local server did not start in time" rfl rfl rfl).1,
    (C8_probe_failure Op.startExisting probeFailOpEnv (initState true) (initState true)
      "Local server did not start in time" rfl rfl rfl).2.1,
    (C8_probe_failure Op.startExisting probeFailOpEnv (initState true) (initState true)
      "Local server did not start in time" rfl rfl rfl).2.2⟩

/-- Counterexample to C1 as stated: with a failing start script and a
healthy probe, `start_existing` succeeds with `error = None` and phase
`running`, but the final message is the plain action message, not the
warnings message — the warnings message is overwritten by the final status
update. -/
theorem C1_counterexample :
    (runOp Op.startExisting warnEnv (initState true)).2
      = Except.ok ((runOp Op.startExisting warnEnv (initState true)).1.status) ∧
    (runOp Op.startExisting warnEnv (initState true)).1.status.error = none ∧
    (runOp Op.startExisting warnEnv (initState true)).1.status.phase = "running" ∧
    (runOp Op.startExisting warnEnv (initState true)).1.status.message = "Server started." ∧
    "Server started." ≠ "Server started with warnings." :=
  ⟨rfl, rfl, rfl, rfl, by decide⟩

/-- C1 (amended): for every start-family operation whose provisioning
prefix succeeded, if the start script fails but the upward health wait
succeeds, the operation returns success, the final status has `error =
None`, phase `running` and the plain action-stamped message, and a status
update with the message `"Server started with warnings."` is emitted during
the operation. -/
theorem C1_health_overrides_script (op : Op) (e : OpEnv) (s s1 : MState) (msg : String)
    (hfam : op.isStartFamily = true)
    (hprov : provPart op e s = (s1, Except.ok ()))
    (hscript : e.start.script.result = some msg)
    (hh : e.start.healthUp = Except.ok ()) :
    (runOp op e s).2 = Except.ok ((runOp op e s).1.status) ∧
    (runOp op e s).1.status.error = none ∧
    (runOp op e s).1.status.phase = "running" ∧
    (runOp op e s).1.status.message = "Server " ++ actionOf op ++ "ed." ∧
    ∃ st ∈ (runOp op e s).1.emits, st.message = "Server started with warnings." := by
  rw [runOp_start_eq op e s s1 hfam hprov]
  have hstart := start_server_ok_final e.start (actionOf op) s1 () hh
  have hS := pair_eta_of_snd _ _ hstart.1
  rw [execute_ok (fun _ => start_server e.start (actionOf op) s1) s _ _ hS]
  exact ⟨rfl, hstart.2.2.2.1, hstart.2.1, hstart.2.2.2.2.1,
    start_server_warn_emit e.start (actionOf op) s1 () hh msg hscript⟩

/-- Witness for C1: the warnings snapshot is emitted in the concrete
warnings run. -/
theorem C1_witness :
    provPart Op.startExisting warnEnv (initState true) = (initState true, Except.ok ()) ∧
    ∃ st ∈ (runOp Op.startExisting warnEnv (initState true)).1.emits,
      st.message = "Server started with warnings." :=
  ⟨rfl,
    (C1_health_overrides_script Op.startExisting warnEnv (initState true) (initState true)
      "start script failed" rfl rfl rfl rfl).2.2.2.2⟩

/-- Counterexample to C4 as stated: `stop` from an error status moves to
phase `idle` without clearing the stale `error` field (breaking the
biconditional), and `reinstall` from a running status reaches a mutation
with `running = true` while the phase is no longer `running` (breaking the
implication), although both input statuses satisfy the invariant. -/
theorem C4_counterexample :
    StatusInvariant errorState.status ∧
    ¬ StatusInvariant (runOp Op.stopOp benignOpEnv errorState).1.status ∧
    StatusInvariant runningState.status ∧
    ¬ StatusInvariant (runOp Op.reinstallOp cloneFailOpEnv runningState).1.status :=
  ⟨by decide, by decide, by decide, by decide⟩

/-- C4 (amended): every lifecycle operation preserves the one direction of
the invariant the code maintains at every mutation — whenever the phase is
`error` the `error` field is populated — both on the stored status and on
every emitted snapshot.  (Neither `running = true → phase = running` nor
`error ≠ none → phase = error` holds at every mutation.) -/
theorem C4_error_phase_preserved (op : Op) (e : OpEnv) (s : MState)
    (hcur : ErrImp s.status) (hpast : ∀ st ∈ s.emits, ErrImp st) :
    ErrImp (runOp op e s).1.status ∧ ∀ st ∈ (runOp op e s).1.emits, ErrImp st := by
  obtain ⟨hd, himp, L, hL, hall⟩ := runOp_frame op e s
  refine ⟨himp hcur, ?_⟩
  intro st hst
  rw [hL] at hst
  rcases List.mem_append.mp hst with h | h
  · exact hpast st h
  · exact (hall st h).2 hcur

/-- Witness for C4 on a concrete stop run. -/
theorem C4_witness :
    ErrImp (initState true).status ∧
    ErrImp (runOp Op.stopOp benignOpEnv (initState true)).1.status ∧
    ∀ st ∈ (runOp Op.stopOp benignOpEnv (initState true)).1.emits, ErrImp st :=
  ⟨by decide,
    (C4_error_phase_preserved Op.stopOp benignOpEnv (initState true) (by decide)
      (by decide)).1,
    (C4_error_phase_preserved Op.stopOp benignOpEnv (initState true) (by decide)
      (by decide)).2⟩

/-- C10: the status record starts with `install_dir = None` and no
lifecycle operation ever assigns it — it stays `None` on the stored status
and on every emitted snapshot. -/
theorem C10_install_dir_never_set (op : Op) (e : OpEnv) (s : MState)
    (h1 : s.status.install_dir = none) (h2 : ∀ st ∈ s.emits, st.install_dir = none) :
    (∀ m n, (FastWhisperStatus.new m n).install_dir = none) ∧
    (runOp op e s).1.status.install_dir = none ∧
    ∀ st ∈ (runOp op e s).1.emits, st.install_dir = none := by
  obtain ⟨hd, himp, L, hL, hall⟩ := runOp_frame op e s
  refine ⟨fun m n => rfl, by rw [hd, h1], ?_⟩
  intro st hst
  rw [hL] at hst
  rcases List.mem_append.mp hst with h | h
  · exact h2 st h
  · rw [(hall st h).1, h1]

/-- Witness for C10 on a concrete restart run. -/
theorem C10_witness :
    (runOp Op.restartOp benignOpEnv (initState true)).1.status.install_dir = none ∧
    ∀ st ∈ (runOp Op.restartOp benignOpEnv (initState true)).1.emits,
      st.install_dir = none :=
  ⟨(C10_install_dir_never_set Op.restartOp benignOpEnv (initState true) rfl (by decide)).2.1,
    (C10_install_dir_never_set Op.restartOp benignOpEnv (initState true) rfl (by decide)).2.2⟩

end Winky
